import Mathlib

/-!
Shallow embedding of the progress/scheduling engine of `src/index.py`
(a study-syllabus tracking bot).  Timestamps are integers (seconds);
Python `timedelta(days = d)` is `d * 86400` seconds and
`(a - b).days` is floor division of the difference by 86400
(Python timedelta normalises with `0 <= seconds < 86400`, so `.days`
rounds toward negative infinity).  JSON documents become structures,
dicts become association lists preserving insertion order, and the
persisted document returned by each operation is exactly what the
code has `save_progress`/`save_syllabi`-ed when the handler finishes
(including the case where a later display line raises after a save).
-/

def secPerDay : Int := 86400

/-- Python `timedelta.days`: floor of the difference in days. -/
def tdDays (t : Int) : Int := Int.fdiv t secPerDay

/-- Python list indexing `l[i]` (negative indices wrap from the end);
`none` models an `IndexError`. -/
def pyGet (l : List String) (i : Int) : Option String :=
  if 0 ≤ i then l.get? i.toNat
  else
    let j := (l.length : Int) + i
    if 0 ≤ j then l.get? j.toNat else none

/-- Ordered-dict lookup. -/
def lookupA {κ α : Type} [DecidableEq κ] : List (κ × α) → κ → Option α
  | [], _ => none
  | kv :: t, k => if kv.1 = k then some kv.2 else lookupA t k

/-- Ordered-dict update `d[k] = v`: replaces in place, else appends
(Python dicts preserve insertion order). -/
def updA {κ α : Type} [DecidableEq κ] : List (κ × α) → κ → α → List (κ × α)
  | [], k, v => [(k, v)]
  | kv :: t, k, v => if kv.1 = k then (k, v) :: t else kv :: updA t k v

/-- One syllabus of `syllabi.json`: task texts and the pause flag. -/
structure Syllabus where
  tasks : List String
  paused : Bool
deriving DecidableEq

/-- The `syllabi.json` document; `current_field` is `""` in the code,
modelled as `none`. -/
structure Catalog where
  current_field : Option String
  syllabi : List (String × Syllabus)
deriving DecidableEq

/-- One record of `progress.json`'s `syllabi_progress`.  A missing
`completion_dates` key is the empty list; `due_date` may be absent. -/
structure SyllabusProgress where
  current_week : Int
  completed_weeks : List Int
  completion_dates : List (Int × Int)
  start_date : Int
  due_date : Option Int
deriving DecidableEq

/-- `progress.json`'s `global_settings`. -/
structure GlobalSettings where
  reminder_interval : Nat
  reminders_enabled : Bool
  last_reminder : Option Int
deriving DecidableEq

/-- The whole `progress.json` document. -/
structure ProgressDoc where
  global_settings : GlobalSettings
  syllabi_progress : List (String × SyllabusProgress)
deriving DecidableEq

/-- The record freshly created by `get_syllabus_progress`. -/
def freshProgress (gs : GlobalSettings) (now : Int) : SyllabusProgress :=
  { current_week := 1
    completed_weeks := []
    completion_dates := []
    start_date := now
    due_date := some (now + (gs.reminder_interval : Int) * secPerDay) }

/-- Replace the record of one syllabus. -/
def setProg (p : ProgressDoc) (name : String) (sp : SyllabusProgress) : ProgressDoc :=
  { p with syllabi_progress := updA p.syllabi_progress name sp }

/-- `get_syllabus_progress`: returns the record (initialising it in the
in-memory document when missing) together with the document. -/
def get_syllabus_progress (p : ProgressDoc) (name : String) (now : Int) :
    SyllabusProgress × ProgressDoc :=
  match lookupA p.syllabi_progress name with
  | some sp => (sp, p)
  | none =>
    let sp := freshProgress p.global_settings now
    (sp, setProg p name sp)

/-- `update_due_date`: sets the record's `due_date` to
`now + reminder_interval` days. -/
def update_due_date (p : ProgressDoc) (name : String) (now : Int) : ProgressDoc :=
  let pr := get_syllabus_progress p name now
  setProg pr.2 name
    { pr.1 with due_date := some (now + (p.global_settings.reminder_interval : Int) * secPerDay) }

/-- Result rendered by the select/switch callbacks.  `indexError` is a
task-list access raising after the saves already happened. -/
inductive SelectOutcome
  | switched (statusFresh : Bool) (task : String) (daysRemaining : Option Int)
  | pausedMsg (name : String)
  | indexError
deriving DecidableEq

/-- `start_syllabus_callback` (the spec's `select`): returns the
persisted catalog, the persisted progress document, and the outcome.
An unknown or paused name takes the single `else` branch printing the
"is paused" message. -/
def start_syllabus_callback (c : Catalog) (p : ProgressDoc) (name : String) (now : Int) :
    Catalog × ProgressDoc × SelectOutcome :=
  match lookupA c.syllabi name with
  | none => (c, p, .pausedMsg name)
  | some syl =>
    if syl.paused then (c, p, .pausedMsg name)
    else
      let c2 := { c with current_field := some name }
      let pr := get_syllabus_progress p name now
      let sp := pr.1
      let cw := sp.current_week
      let fresh : Bool := decide (cw = 1 ∧ sp.completed_weeks = [])
      let p2 := if cw = 1 ∧ sp.completed_weeks = [] then update_due_date pr.2 name now else pr.2
      let sp2 := (lookupA p2.syllabi_progress name).getD sp
      let days : Option Int := sp2.due_date.map (fun d => tdDays (d - now))
      if cw - 1 ≥ (syl.tasks.length : Int) then
        let p3 := setProg p2 name { sp2 with current_week := 1 }
        (c2, p3,
          match pyGet syl.tasks 0 with
          | some t => .switched fresh t days
          | none => .indexError)
      else
        let pSaved := if cw = 1 ∧ sp.completed_weeks = [] then p2 else p
        (c2, pSaved,
          match pyGet syl.tasks (cw - 1) with
          | some t => .switched fresh t days
          | none => .indexError)

/-- `switch_syllabus_callback`: like select but `update_due_date` runs
unconditionally; the message quotes the configured interval as the
days-remaining figure. -/
def switch_syllabus_callback (c : Catalog) (p : ProgressDoc) (name : String) (now : Int) :
    Catalog × ProgressDoc × SelectOutcome :=
  match lookupA c.syllabi name with
  | none => (c, p, .pausedMsg name)
  | some syl =>
    if syl.paused then (c, p, .pausedMsg name)
    else
      let c2 := { c with current_field := some name }
      let pr := get_syllabus_progress p name now
      let sp := pr.1
      let cw := sp.current_week
      let p2 := update_due_date pr.2 name now
      let sp2 := (lookupA p2.syllabi_progress name).getD sp
      let fresh : Bool := decide (cw = 1 ∧ sp2.completed_weeks = [])
      let days : Option Int := some (p.global_settings.reminder_interval : Int)
      if cw - 1 ≥ (syl.tasks.length : Int) then
        let p3 := setProg p2 name { sp2 with current_week := 1 }
        (c2, p3,
          match pyGet syl.tasks 0 with
          | some t => .switched fresh t days
          | none => .indexError)
      else
        (c2, p2,
          match pyGet syl.tasks (cw - 1) with
          | some t => .switched fresh t days
          | none => .indexError)

/-- Result rendered by `handle_yes_response`. -/
inductive CompleteOutcome
  | noActive
  | congrats (field : String)
  | next (completedTask nextTask : String) (intervalDays : Nat)
  | err
deriving DecidableEq

/-- `handle_yes_response` (the spec's `complete_current`): appends
`current_week - 1` to `completed_weeks` when absent, records the
completion date, advances the week, recomputes the due date, and
saves before building the message (so the document is persisted even
when the message rendering raises). -/
def handle_yes_response (c : Catalog) (p : ProgressDoc) (now : Int) :
    ProgressDoc × CompleteOutcome :=
  match c.current_field with
  | none => (p, .noActive)
  | some f =>
    let pr := get_syllabus_progress p f now
    let sp := pr.1
    let cw := sp.current_week
    let cwi := cw - 1
    let sp2 : SyllabusProgress :=
      { sp with
        completed_weeks :=
          if cwi ∈ sp.completed_weeks then sp.completed_weeks
          else sp.completed_weeks ++ [cwi]
        completion_dates := updA sp.completion_dates cwi now
        current_week := cw + 1 }
    let p3 := update_due_date (setProg pr.2 f sp2) f now
    (p3,
      match lookupA c.syllabi f with
      | none => .err
      | some syl =>
        let n : Int := syl.tasks.length
        if cw + 1 > n then .congrats f
        else
          let cti : Int := if cwi < 0 ∨ cwi ≥ n then 0 else cwi
          let nti : Int := if cw < 0 ∨ cw ≥ n then 0 else cw
          match pyGet syl.tasks cti, pyGet syl.tasks nti with
          | some a, some b => .next a b p.global_settings.reminder_interval
          | _, _ => .err)

/-- Result rendered by `handle_no_response`. -/
inductive DeferOutcome
  | noActive
  | extended (task : String) (extensionDays : Nat) (daysUntil : Int)
  | noDueDate (task : String)
  | err
deriving DecidableEq

/-- `handle_no_response` (the spec's `defer_current`): extends the due
date by `max(3, interval // 2)` days when a due date exists, saving
before the message is built; without a due date nothing is saved. -/
def handle_no_response (c : Catalog) (p : ProgressDoc) (now : Int) :
    ProgressDoc × DeferOutcome :=
  match c.current_field with
  | none => (p, .noActive)
  | some f =>
    let pr := get_syllabus_progress p f now
    let sp := pr.1
    let cw := sp.current_week
    let ext : Nat := max 3 (p.global_settings.reminder_interval / 2)
    match sp.due_date with
    | some d =>
      let d2 := d + (ext : Int) * secPerDay
      let p2 := setProg pr.2 f { sp with due_date := some d2 }
      (p2,
        match (lookupA c.syllabi f).bind (fun syl => pyGet syl.tasks (cw - 1)) with
        | some t => .extended t ext (tdDays (d2 - now))
        | none => .err)
    | none =>
      (p,
        match (lookupA c.syllabi f).bind (fun syl => pyGet syl.tasks (cw - 1)) with
        | some t => .noDueDate t
        | none => .err)

/-- Result rendered by `handle_reset_yes`. -/
inductive ResetOutcome
  | noActive
  | resetDone (firstTask : String) (intervalDays : Nat)
  | noProgress
  | err
deriving DecidableEq

/-- `handle_reset_yes`: overwrites the record of the current syllabus
with a fresh one (week 1, no completions, `due_date = now + interval`). -/
def handle_reset_yes (c : Catalog) (p : ProgressDoc) (now : Int) :
    ProgressDoc × ResetOutcome :=
  match c.current_field with
  | none => (p, .noActive)
  | some f =>
    match lookupA p.syllabi_progress f with
    | none => (p, .noProgress)
    | some _ =>
      let interval := p.global_settings.reminder_interval
      let sp : SyllabusProgress :=
        { current_week := 1
          completed_weeks := []
          completion_dates := []
          start_date := now
          due_date := some (now + (interval : Int) * secPerDay) }
      let p2 := setProg p f sp
      (p2,
        match (lookupA c.syllabi f).bind (fun syl => pyGet syl.tasks 0) with
        | some t => .resetDone t interval
        | none => .err)

/-- `pause_syllabus_callback`: sets the pause flag and clears
`current_field` when it names the paused syllabus.  The boolean is
whether the syllabus was found. -/
def pause_syllabus_callback (c : Catalog) (name : String) : Catalog × Bool :=
  match lookupA c.syllabi name with
  | none => (c, false)
  | some syl =>
    let c1 := { c with syllabi := updA c.syllabi name { syl with paused := true } }
    let c2 := if c1.current_field = some name then { c1 with current_field := none } else c1
    (c2, true)

/-- `resume_syllabus_callback`: clears the pause flag; `current_field`
is not restored. -/
def resume_syllabus_callback (c : Catalog) (name : String) : Catalog × Bool :=
  match lookupA c.syllabi name with
  | none => (c, false)
  | some syl =>
    ({ c with syllabi := updA c.syllabi name { syl with paused := false } }, true)

/-- `set_reminder_interval`: rejects `days < 1` without saving;
otherwise stores the interval and recomputes the current syllabus's
due date with the new interval. -/
def set_reminder_interval (c : Catalog) (p : ProgressDoc) (days : Int) (now : Int) :
    ProgressDoc × Bool :=
  if days < 1 then (p, false)
  else
    let p1 := { p with global_settings := { p.global_settings with reminder_interval := days.toNat } }
    match c.current_field with
    | some f => (update_due_date p1 f now, true)
    | none => (p1, true)

/-- `toggle_reminders`: flips the reminders-enabled flag. -/
def toggle_reminders (p : ProgressDoc) : ProgressDoc :=
  { p with global_settings :=
    { p.global_settings with reminders_enabled := not p.global_settings.reminders_enabled } }

/-- Due/overdue status text of the handlers: `(OVERDUE by |days|)` or
`(Due in days)`. -/
inductive DueStatus
  | overdueBy (d : Int)
  | dueIn (d : Int)
deriving DecidableEq

/-- Result rendered by the `/current` handler. -/
inductive CurrentOutcome
  | noActiveOrPaused
  | task (field : String) (taskText : String) (status : Option DueStatus)
  | noTask
  | err
deriving DecidableEq

/-- The `/current` command handler (`current_week` in the source, the
spec's `current()`).  It never saves, so only the outcome is returned. -/
def current_week (c : Catalog) (p : ProgressDoc) (now : Int) : CurrentOutcome :=
  match c.current_field with
  | none => .noActiveOrPaused
  | some f =>
    match lookupA c.syllabi f with
    | none => .err
    | some syl =>
      if syl.paused then .noActiveOrPaused
      else
        let sp := (get_syllabus_progress p f now).1
        let cw := sp.current_week
        if 0 < cw ∧ cw ≤ (syl.tasks.length : Int) then
          let status := sp.due_date.map (fun d =>
            let days := tdDays (d - now)
            if days < 0 then DueStatus.overdueBy (abs days) else DueStatus.dueIn days)
          match pyGet syl.tasks (cw - 1) with
          | some t => .task f t status
          | none => .err
        else .noTask

/-- Result rendered by the `/check` handler. -/
inductive CheckOutcome
  | ask (field : String) (taskText : String) (dueInfo : Option DueStatus)
  | noTask
  | noActiveOrPaused
  | err
deriving DecidableEq

/-- The `/check` command handler (`check_progress`): offers the yes/no
buttons only when `0 < current_week <= len(tasks)` — the stated
precondition of completing the current task.  Never saves. -/
def check_progress (c : Catalog) (p : ProgressDoc) (now : Int) : CheckOutcome :=
  match c.current_field with
  | none => .noActiveOrPaused
  | some f =>
    match lookupA c.syllabi f with
    | none => .err
    | some syl =>
      if syl.paused then .noActiveOrPaused
      else
        let sp := (get_syllabus_progress p f now).1
        let cw := sp.current_week
        if 0 < cw ∧ cw ≤ (syl.tasks.length : Int) then
          let dueInfo := sp.due_date.map (fun d =>
            let days := tdDays (d - now)
            if days < 0 then DueStatus.overdueBy (abs days) else DueStatus.dueIn days)
          match pyGet syl.tasks (cw - 1) with
          | some t => .ask f t dueInfo
          | none => .err
        else .noTask

/-- The numbers printed by `/statistics`.  `estimate` is the estimated
days to completion (exact rationals in place of Python floats; the
guarded division cannot fail, matching the swallowed `try` block). -/
structure StatsReport where
  completed_tasks : Nat
  total_tasks : Nat
  current_display : Int
  days_active : Int
  days_left : Option Int
  remaining : Option Int
  estimate : Option ℚ
deriving DecidableEq

/-- `show_statistics`: the remaining-tasks line appears only below the
terminal state, and the completion estimate only when additionally
`days_active > 0` and `completed_tasks > 0`.  Never saves. -/
def show_statistics (c : Catalog) (p : ProgressDoc) (now : Int) : Option StatsReport :=
  match c.current_field with
  | none => none
  | some f =>
    match lookupA c.syllabi f with
    | none => none
    | some syl =>
      let sp := (get_syllabus_progress p f now).1
      let total := syl.tasks.length
      let completed := sp.completed_weeks.length
      let cw := sp.current_week
      let daysActive := tdDays (now - sp.start_date)
      let daysLeft := sp.due_date.map (fun d => tdDays (d - now))
      if cw ≤ (total : Int) then
        let remaining : Int := (total : Int) - cw + 1
        let estimate : Option ℚ :=
          if 0 < daysActive ∧ 0 < completed then
            some ((remaining : ℚ) * ((daysActive : ℚ) / (completed : ℚ)))
          else none
        some { completed_tasks := completed, total_tasks := total
               current_display := min cw (total : Int), days_active := daysActive
               days_left := daysLeft, remaining := some remaining, estimate := estimate }
      else
        some { completed_tasks := completed, total_tasks := total
               current_display := min cw (total : Int), days_active := daysActive
               days_left := daysLeft, remaining := none, estimate := none }

/-- A message sent by the daily scheduler. -/
inductive Notification
  | dueToday (field task : String)
  | dueTomorrow (field task : String)
  | overdue (field task : String) (daysOverdue : Int)
deriving DecidableEq

/-- `"2000-01-01T00:00:00"`, the default used when
`global_settings.last_reminder` is unset, as epoch seconds. -/
def defaultLastReminder : Int := 946684800

/-- The overdue-throttle reference time. -/
def lastRemOf (p : ProgressDoc) : Int :=
  p.global_settings.last_reminder.getD defaultLastReminder

/-- `check_due_dates`, the daily scheduler run: returns the persisted
catalog (never written here), the persisted progress document (written
only when an overdue reminder is sent), and the notification sent, if
any.  An absent current syllabus in the catalog aborts the run before
any save (uncaught `KeyError` in the job). -/
def check_due_dates (c : Catalog) (p : ProgressDoc) (now : Int) :
    Catalog × ProgressDoc × Option Notification :=
  if p.global_settings.reminders_enabled = false then (c, p, none)
  else
    match c.current_field with
    | none => (c, p, none)
    | some f =>
      match lookupA c.syllabi f with
      | none => (c, p, none)
      | some syl =>
        if syl.paused then (c, p, none)
        else
          let pr := get_syllabus_progress p f now
          let sp := pr.1
          match sp.due_date with
          | none => (c, p, none)
          | some due =>
            let days := tdDays (due - now)
            if 0 ≤ days ∧ days ≤ 1 then
              if sp.current_week ≤ (syl.tasks.length : Int) then
                match pyGet syl.tasks (sp.current_week - 1) with
                | some t =>
                  (c, p, some (if days = 0 then .dueToday f t else .dueTomorrow f t))
                | none => (c, p, none)
              else (c, p, none)
            else if days < 0 then
              if 3 ≤ tdDays (now - lastRemOf p) then
                if sp.current_week ≤ (syl.tasks.length : Int) then
                  match pyGet syl.tasks (sp.current_week - 1) with
                  | some t =>
                    (c, { pr.2 with global_settings :=
                            { pr.2.global_settings with last_reminder := some now } },
                     some (.overdue f t (-days)))
                  | none => (c, p, none)
                else (c, p, none)
              else (c, p, none)
            else (c, p, none)

/-- The record invariant the spec states for a syllabus with `n`
tasks: completed indices are in range and completion dates only cover
completed weeks. -/
def recordInv (n : Nat) (sp : SyllabusProgress) : Prop :=
  (∀ i ∈ sp.completed_weeks, i < (n : Int)) ∧
  (∀ kv ∈ sp.completion_dates, kv.1 ∈ sp.completed_weeks)

/-- The progress-record invariant over whole documents: every record
of a syllabus present in the catalog satisfies `recordInv`. -/
def progressInv (c : Catalog) (p : ProgressDoc) : Prop :=
  ∀ f sp syl, lookupA p.syllabi_progress f = some sp →
    lookupA c.syllabi f = some syl → recordInv syl.tasks.length sp

/-- Iterated `handle_yes_response` at the given sequence of times
(the catalog is never written by that handler). -/
def completeN (c : Catalog) : ProgressDoc → List Int → ProgressDoc
  | p, [] => p
  | p, t :: ts => completeN c (handle_yes_response c p t).1 ts

/-! ### Helper lemmas -/

theorem secPerDay_pos : (0 : Int) < secPerDay := by decide

theorem tdDays_floor (t : Int) :
    secPerDay * tdDays t ≤ t ∧ t < secPerDay * (tdDays t + 1) := by
  have h := Int.fdiv_add_fmod t 86400
  have h1 : (0 : Int) ≤ Int.fmod t 86400 := Int.fmod_nonneg' t (by decide)
  have h2 : Int.fmod t 86400 < 86400 := Int.fmod_lt_of_pos t (by decide)
  unfold tdDays secPerDay
  constructor <;> omega

theorem three_le_tdDays_iff (t : Int) : 3 ≤ tdDays t ↔ 3 * secPerDay ≤ t := by
  have h := tdDays_floor t
  have hs : secPerDay = 86400 := rfl
  rw [hs] at h ⊢
  omega

theorem tdDays_natMul (i : Nat) : tdDays ((i : Int) * secPerDay) = (i : Int) := by
  unfold tdDays
  exact Int.mul_fdiv_cancel _ (by decide)

theorem lookupA_updA_self {κ α : Type} [DecidableEq κ] (l : List (κ × α)) (k : κ) (v : α) :
    lookupA (updA l k v) k = some v := by
  induction l with
  | nil => simp [updA, lookupA]
  | cons kv t ih =>
    by_cases h : kv.1 = k
    · simp [updA, h, lookupA]
    · simp [updA, h, lookupA, ih]

theorem lookupA_updA_ne {κ α : Type} [DecidableEq κ] (l : List (κ × α)) (k g : κ) (v : α)
    (h : g ≠ k) : lookupA (updA l k v) g = lookupA l g := by
  induction l with
  | nil =>
    simp only [updA, lookupA]
    rw [if_neg (Ne.symm h)]
  | cons kv t ih =>
    by_cases hk : kv.1 = k
    · simp only [updA, if_pos hk, lookupA]
      rw [if_neg (Ne.symm h), if_neg (by rw [hk]; exact Ne.symm h)]
    · simp only [updA, if_neg hk, lookupA]
      rw [ih]

theorem updA_updA {κ α : Type} [DecidableEq κ] (l : List (κ × α)) (k : κ) (a b : α) :
    updA (updA l k a) k b = updA l k b := by
  induction l with
  | nil => simp [updA]
  | cons kv t ih =>
    by_cases h : kv.1 = k
    · simp [updA, h]
    · simp [updA, h, ih]

theorem mem_updA {κ α : Type} [DecidableEq κ] {k : κ} {v : α} {kv : κ × α} :
    ∀ l : List (κ × α), kv ∈ updA l k v → kv = (k, v) ∨ kv ∈ l
  | [], h => by
    simp only [updA] at h
    exact Or.inl (List.mem_singleton.mp h)
  | kv0 :: t, h => by
    simp only [updA] at h
    by_cases hk : kv0.1 = k
    · rw [if_pos hk] at h
      rcases List.mem_cons.mp h with h1 | h1
      · exact Or.inl h1
      · exact Or.inr (List.mem_cons_of_mem _ h1)
    · rw [if_neg hk] at h
      rcases List.mem_cons.mp h with h1 | h1
      · exact Or.inr (h1 ▸ List.mem_cons_self _ _)
      · rcases mem_updA t h1 with h2 | h2
        · exact Or.inl h2
        · exact Or.inr (List.mem_cons_of_mem _ h2)

theorem setProg_gs (p : ProgressDoc) (f : String) (sp : SyllabusProgress) :
    (setProg p f sp).global_settings = p.global_settings := rfl

theorem lookupA_setProg_self (p : ProgressDoc) (f : String) (sp : SyllabusProgress) :
    lookupA (setProg p f sp).syllabi_progress f = some sp :=
  lookupA_updA_self _ _ _

theorem lookupA_setProg_ne (p : ProgressDoc) (f g : String) (sp : SyllabusProgress)
    (h : g ≠ f) : lookupA (setProg p f sp).syllabi_progress g = lookupA p.syllabi_progress g :=
  lookupA_updA_ne _ _ _ _ h

theorem setProg_setProg (p : ProgressDoc) (f : String) (a b : SyllabusProgress) :
    setProg (setProg p f a) f b = setProg p f b := by
  simp [setProg, updA_updA]

theorem getSP_of_mem {p : ProgressDoc} {f : String} {sp : SyllabusProgress} (now : Int)
    (h : lookupA p.syllabi_progress f = some sp) :
    get_syllabus_progress p f now = (sp, p) := by
  simp [get_syllabus_progress, h]

theorem getSP_of_none {p : ProgressDoc} {f : String} (now : Int)
    (h : lookupA p.syllabi_progress f = none) :
    get_syllabus_progress p f now =
      (freshProgress p.global_settings now, setProg p f (freshProgress p.global_settings now)) := by
  simp [get_syllabus_progress, h]

theorem getSP_lookup (p : ProgressDoc) (f : String) (now : Int) :
    lookupA (get_syllabus_progress p f now).2.syllabi_progress f =
      some (get_syllabus_progress p f now).1 := by
  cases h : lookupA p.syllabi_progress f with
  | some sp => simp [getSP_of_mem now h, h]
  | none => simp [getSP_of_none now h, lookupA_setProg_self]

theorem getSP_gs (p : ProgressDoc) (f : String) (now : Int) :
    (get_syllabus_progress p f now).2.global_settings = p.global_settings := by
  cases h : lookupA p.syllabi_progress f with
  | some sp => simp [getSP_of_mem now h]
  | none => simp [getSP_of_none now h, setProg_gs]

theorem update_due_date_of_mem {p : ProgressDoc} {f : String} {sp : SyllabusProgress} (now : Int)
    (h : lookupA p.syllabi_progress f = some sp) :
    update_due_date p f now = setProg p f
      { sp with due_date := some (now + (p.global_settings.reminder_interval : Int) * secPerDay) } := by
  simp [update_due_date, getSP_of_mem now h]

theorem update_due_date_of_none {p : ProgressDoc} {f : String} (now : Int)
    (h : lookupA p.syllabi_progress f = none) :
    update_due_date p f now = setProg p f
      { freshProgress p.global_settings now with
        due_date := some (now + (p.global_settings.reminder_interval : Int) * secPerDay) } := by
  simp [update_due_date, getSP_of_none now h, setProg_setProg]

theorem recordInv_fresh (n : Nat) (gs : GlobalSettings) (now : Int) :
    recordInv n (freshProgress gs now) := by
  constructor <;> simp [freshProgress]

theorem recordInv_of_listsEq {n : Nat} {sp sp2 : SyllabusProgress}
    (h1 : sp2.completed_weeks = sp.completed_weeks)
    (h2 : sp2.completion_dates = sp.completion_dates)
    (h : recordInv n sp) : recordInv n sp2 := by
  rw [recordInv, h1, h2]
  exact h

theorem progressInv_setProg {c : Catalog} {p : ProgressDoc} {f : String}
    {sp2 : SyllabusProgress} (hInv : progressInv c p)
    (h : ∀ syl, lookupA c.syllabi f = some syl → recordInv syl.tasks.length sp2) :
    progressInv c (setProg p f sp2) := by
  intro g spg syl hg hcg
  by_cases hgf : g = f
  · subst hgf
    rw [lookupA_setProg_self] at hg
    have he : sp2 = spg := by injection hg
    subst he
    exact h syl hcg
  · rw [lookupA_setProg_ne _ _ _ _ hgf] at hg
    exact hInv g spg syl hg hcg

theorem progressInv_getSP {c : Catalog} {p : ProgressDoc} (f : String) (now : Int)
    (hInv : progressInv c p) : progressInv c (get_syllabus_progress p f now).2 := by
  cases h : lookupA p.syllabi_progress f with
  | some sp => rw [getSP_of_mem now h]; exact hInv
  | none =>
    rw [getSP_of_none now h]
    exact progressInv_setProg hInv (fun syl _ => recordInv_fresh _ _ _)

theorem progressInv_update_due_date {c : Catalog} {p : ProgressDoc} (f : String) (now : Int)
    (hInv : progressInv c p) : progressInv c (update_due_date p f now) := by
  cases h : lookupA p.syllabi_progress f with
  | some sp =>
    rw [update_due_date_of_mem now h]
    refine progressInv_setProg hInv (fun syl hc => ?_)
    exact recordInv_of_listsEq rfl rfl (hInv f sp syl h hc)
  | none =>
    rw [update_due_date_of_none now h]
    refine progressInv_setProg hInv (fun syl hc => ?_)
    exact recordInv_of_listsEq rfl rfl (recordInv_fresh _ _ _)

theorem progressInv_gsChange {c : Catalog} {p : ProgressDoc} {g : GlobalSettings}
    (hInv : progressInv c p) : progressInv c { p with global_settings := g } :=
  fun f sp syl hf hc => hInv f sp syl hf hc

theorem progressInv_cfChange {c : Catalog} {p : ProgressDoc} {x : Option String}
    (hInv : progressInv c p) : progressInv { c with current_field := x } p :=
  fun f sp syl hf hc => hInv f sp syl hf hc

theorem progressInv_tasksEq {c c2 : Catalog} {p : ProgressDoc} (hInv : progressInv c p)
    (h : ∀ g syl2, lookupA c2.syllabi g = some syl2 →
      ∃ syl, lookupA c.syllabi g = some syl ∧ syl2.tasks = syl.tasks) :
    progressInv c2 p := by
  intro f sp syl2 hf hc2
  obtain ⟨syl, hc, ht⟩ := h f syl2 hc2
  rw [recordInv, ht]
  exact hInv f sp syl hf hc

theorem pyGet_zero (l : List String) : pyGet l 0 = l.get? 0 := by
  simp [pyGet]

theorem pyGet_nonneg {i : Int} (l : List String) (h : 0 ≤ i) :
    pyGet l i = l.get? i.toNat := by
  simp [pyGet, h]

theorem handle_yes_progress {c : Catalog} {p : ProgressDoc} {f : String}
    {sp : SyllabusProgress} (now : Int)
    (hcf : c.current_field = some f)
    (hsp : lookupA p.syllabi_progress f = some sp) :
    (handle_yes_response c p now).1 = setProg p f
      { sp with
        completed_weeks :=
          if sp.current_week - 1 ∈ sp.completed_weeks then sp.completed_weeks
          else sp.completed_weeks ++ [sp.current_week - 1]
        completion_dates := updA sp.completion_dates (sp.current_week - 1) now
        current_week := sp.current_week + 1
        due_date := some (now + (p.global_settings.reminder_interval : Int) * secPerDay) } := by
  simp only [handle_yes_response, hcf, getSP_of_mem now hsp]
  rw [update_due_date_of_mem now (lookupA_setProg_self _ _ _), setProg_setProg]
  rfl

theorem completeN_spec (c : Catalog) (f : String) (hcf : c.current_field = some f) :
    ∀ (times : List Int) (p : ProgressDoc) (k : Nat) (sp : SyllabusProgress),
      lookupA p.syllabi_progress f = some sp →
      sp.current_week = 1 + (k : Int) →
      sp.completed_weeks = (List.range k).map Int.ofNat →
      ∃ sp2, lookupA (completeN c p times).syllabi_progress f = some sp2 ∧
        sp2.current_week = 1 + (k : Int) + (times.length : Int) ∧
        sp2.completed_weeks = (List.range (k + times.length)).map Int.ofNat
  | [], p, k, sp, hsp, hw, hcw =>
    ⟨sp, by simpa [completeN] using hsp, by simpa using hw, by simpa using hcw⟩
  | t :: ts, p, k, sp, hsp, hw, hcw => by
    have hksub : sp.current_week - 1 = (k : Int) := by rw [hw]; ring
    have hmem : sp.current_week - 1 ∉ sp.completed_weeks := by
      rw [hksub, hcw]
      intro hin
      obtain ⟨j, hj, hje⟩ := List.mem_map.mp hin
      rw [List.mem_range] at hj
      have hje2 : (j : Int) = (k : Int) := hje
      omega
    have hstep := handle_yes_progress t hcf hsp
    rw [if_neg hmem] at hstep
    have hR : lookupA ((handle_yes_response c p t).1).syllabi_progress f = some
        { sp with
          completed_weeks := sp.completed_weeks ++ [sp.current_week - 1]
          completion_dates := updA sp.completion_dates (sp.current_week - 1) t
          current_week := sp.current_week + 1
          due_date := some (t + (p.global_settings.reminder_interval : Int) * secPerDay) } := by
      rw [hstep]
      exact lookupA_setProg_self _ _ _
    obtain ⟨sp2, h1, h2, h3⟩ :=
      completeN_spec c f hcf ts (handle_yes_response c p t).1 (k + 1) _ hR
        (by simp only []; rw [hw]; push_cast; ring)
        (by
          simp only []
          rw [hcw, hksub, List.range_succ, List.map_append]
          rfl)
    refine ⟨sp2, by simpa [completeN] using h1, ?_, ?_⟩
    · rw [h2]
      simp only [List.length_cons]
      push_cast
      ring
    · rw [h3]
      have : k + 1 + ts.length = k + (t :: ts).length := by
        simp [List.length_cons]
        omega
      rw [this]

theorem select_preserves_inv (c : Catalog) (p : ProgressDoc) (name : String) (now : Int)
    (hInv : progressInv c p) :
    progressInv (start_syllabus_callback c p name now).1
      (start_syllabus_callback c p name now).2.1 := by
  cases hc : lookupA c.syllabi name with
  | none =>
    simp only [start_syllabus_callback, hc]
    exact hInv
  | some syl =>
    by_cases hpz : syl.paused = true
    · simp only [start_syllabus_callback, hc, if_pos hpz]
      exact hInv
    · have hpz' : syl.paused = false := by simpa using hpz
      cases hsp : lookupA p.syllabi_progress name with
      | some sp =>
        by_cases hfresh : sp.current_week = 1 ∧ sp.completed_weeks = []
        · by_cases hb : sp.current_week - 1 ≥ (syl.tasks.length : Int)
          · simp only [start_syllabus_callback, hc, hpz', Bool.false_eq_true, if_false,
              getSP_of_mem now hsp, if_pos hfresh, update_due_date_of_mem now hsp,
              lookupA_setProg_self, Option.getD_some, if_pos hb, setProg_setProg]
            exact progressInv_cfChange (progressInv_setProg hInv (fun syl2 hc2 =>
              recordInv_of_listsEq rfl rfl (hInv name sp syl2 hsp hc2)))
          · simp only [start_syllabus_callback, hc, hpz', Bool.false_eq_true, if_false,
              getSP_of_mem now hsp, if_pos hfresh, update_due_date_of_mem now hsp,
              lookupA_setProg_self, Option.getD_some, if_neg hb]
            exact progressInv_cfChange (progressInv_setProg hInv (fun syl2 hc2 =>
              recordInv_of_listsEq rfl rfl (hInv name sp syl2 hsp hc2)))
        · by_cases hb : sp.current_week - 1 ≥ (syl.tasks.length : Int)
          · simp only [start_syllabus_callback, hc, hpz', Bool.false_eq_true, if_false,
              getSP_of_mem now hsp, if_neg hfresh, hsp, Option.getD_some, if_pos hb]
            exact progressInv_cfChange (progressInv_setProg hInv (fun syl2 hc2 =>
              recordInv_of_listsEq rfl rfl (hInv name sp syl2 hsp hc2)))
          · simp only [start_syllabus_callback, hc, hpz', Bool.false_eq_true, if_false,
              getSP_of_mem now hsp, if_neg hfresh, hsp, Option.getD_some, if_neg hb]
            exact progressInv_cfChange hInv
      | none =>
        have hfresh : (freshProgress p.global_settings now).current_week = 1 ∧
            (freshProgress p.global_settings now).completed_weeks = [] := ⟨rfl, rfl⟩
        by_cases hb : (freshProgress p.global_settings now).current_week - 1
            ≥ (syl.tasks.length : Int)
        · simp only [start_syllabus_callback, hc, hpz', Bool.false_eq_true, if_false,
            getSP_of_none now hsp, if_pos hfresh,
            update_due_date_of_mem now (lookupA_setProg_self p name (freshProgress p.global_settings now)),
            setProg_setProg, lookupA_setProg_self, Option.getD_some, if_pos hb]
          exact progressInv_cfChange (progressInv_setProg hInv (fun syl2 hc2 => by
            constructor <;> simp [freshProgress]))
        · simp only [start_syllabus_callback, hc, hpz', Bool.false_eq_true, if_false,
            getSP_of_none now hsp, if_pos hfresh,
            update_due_date_of_mem now (lookupA_setProg_self p name (freshProgress p.global_settings now)),
            setProg_setProg, lookupA_setProg_self, Option.getD_some, if_neg hb]
          exact progressInv_cfChange (progressInv_setProg hInv (fun syl2 hc2 => by
            constructor <;> simp [freshProgress]))

theorem switch_preserves_inv (c : Catalog) (p : ProgressDoc) (name : String) (now : Int)
    (hInv : progressInv c p) :
    progressInv (switch_syllabus_callback c p name now).1
      (switch_syllabus_callback c p name now).2.1 := by
  cases hc : lookupA c.syllabi name with
  | none =>
    simp only [switch_syllabus_callback, hc]
    exact hInv
  | some syl =>
    by_cases hpz : syl.paused = true
    · simp only [switch_syllabus_callback, hc, if_pos hpz]
      exact hInv
    · have hpz' : syl.paused = false := by simpa using hpz
      cases hsp : lookupA p.syllabi_progress name with
      | some sp =>
        by_cases hb : sp.current_week - 1 ≥ (syl.tasks.length : Int)
        · simp only [switch_syllabus_callback, hc, hpz', Bool.false_eq_true, if_false,
            getSP_of_mem now hsp, update_due_date_of_mem now hsp,
            lookupA_setProg_self, Option.getD_some, if_pos hb, setProg_setProg]
          exact progressInv_cfChange (progressInv_setProg hInv (fun syl2 hc2 =>
            recordInv_of_listsEq rfl rfl (hInv name sp syl2 hsp hc2)))
        · simp only [switch_syllabus_callback, hc, hpz', Bool.false_eq_true, if_false,
            getSP_of_mem now hsp, update_due_date_of_mem now hsp,
            lookupA_setProg_self, Option.getD_some, if_neg hb]
          exact progressInv_cfChange (progressInv_setProg hInv (fun syl2 hc2 =>
            recordInv_of_listsEq rfl rfl (hInv name sp syl2 hsp hc2)))
      | none =>
        by_cases hb : (freshProgress p.global_settings now).current_week - 1
            ≥ (syl.tasks.length : Int)
        · simp only [switch_syllabus_callback, hc, hpz', Bool.false_eq_true, if_false,
            getSP_of_none now hsp,
            update_due_date_of_mem now (lookupA_setProg_self p name (freshProgress p.global_settings now)),
            setProg_setProg, lookupA_setProg_self, Option.getD_some, if_pos hb]
          exact progressInv_cfChange (progressInv_setProg hInv (fun syl2 hc2 => by
            constructor <;> simp [freshProgress]))
        · simp only [switch_syllabus_callback, hc, hpz', Bool.false_eq_true, if_false,
            getSP_of_none now hsp,
            update_due_date_of_mem now (lookupA_setProg_self p name (freshProgress p.global_settings now)),
            setProg_setProg, lookupA_setProg_self, Option.getD_some, if_neg hb]
          exact progressInv_cfChange (progressInv_setProg hInv (fun syl2 hc2 => by
            constructor <;> simp [freshProgress]))

/-- Exhaustive shape analysis of a scheduler run: it either leaves
both documents untouched (possibly sending a due-today/due-tomorrow
notification), or sends an overdue notification and persists exactly
the `last_reminder` update. -/
theorem check_due_dates_cases (c : Catalog) (p : ProgressDoc) (now : Int) :
    check_due_dates c p now = (c, p, none) ∨
    (∃ f t, check_due_dates c p now = (c, p, some (Notification.dueToday f t))) ∨
    (∃ f t, check_due_dates c p now = (c, p, some (Notification.dueTomorrow f t))) ∨
    (∃ f t dd, check_due_dates c p now =
      (c, { p with global_settings :=
          { p.global_settings with last_reminder := some now } },
        some (Notification.overdue f t dd))) := by
  by_cases h1 : p.global_settings.reminders_enabled = false
  · left
    simp only [check_due_dates, if_pos h1]
  cases hcf : c.current_field with
  | none =>
    left
    simp only [check_due_dates, if_neg h1, hcf]
  | some f =>
    cases hc : lookupA c.syllabi f with
    | none =>
      left
      simp only [check_due_dates, if_neg h1, hcf, hc]
    | some syl =>
      by_cases hp : syl.paused = true
      · left
        simp only [check_due_dates, if_neg h1, hcf, hc, if_pos hp]
      cases hsp : lookupA p.syllabi_progress f with
      | some sp =>
        cases hdue : sp.due_date with
        | none =>
          left
          simp only [check_due_dates, if_neg h1, hcf, hc, if_neg hp,
            getSP_of_mem now hsp, hdue]
        | some due =>
          by_cases h01 : 0 ≤ tdDays (due - now) ∧ tdDays (due - now) ≤ 1
          · by_cases hwle : sp.current_week ≤ (syl.tasks.length : Int)
            · cases ht : pyGet syl.tasks (sp.current_week - 1) with
              | none =>
                left
                simp only [check_due_dates, if_neg h1, hcf, hc, if_neg hp,
                  getSP_of_mem now hsp, hdue, if_pos h01, if_pos hwle, ht]
              | some t =>
                by_cases h0 : tdDays (due - now) = 0
                · right; left
                  refine ⟨f, t, ?_⟩
                  simp only [check_due_dates, if_neg h1, hcf, hc, if_neg hp,
                    getSP_of_mem now hsp, hdue, if_pos h01, if_pos hwle, ht, if_pos h0]
                · right; right; left
                  refine ⟨f, t, ?_⟩
                  simp only [check_due_dates, if_neg h1, hcf, hc, if_neg hp,
                    getSP_of_mem now hsp, hdue, if_pos h01, if_pos hwle, ht, if_neg h0]
            · left
              simp only [check_due_dates, if_neg h1, hcf, hc, if_neg hp,
                getSP_of_mem now hsp, hdue, if_pos h01, if_neg hwle]
          · by_cases hneg : tdDays (due - now) < 0
            · by_cases hth : 3 ≤ tdDays (now - lastRemOf p)
              · by_cases hwle : sp.current_week ≤ (syl.tasks.length : Int)
                · cases ht : pyGet syl.tasks (sp.current_week - 1) with
                  | none =>
                    left
                    simp only [check_due_dates, if_neg h1, hcf, hc, if_neg hp,
                      getSP_of_mem now hsp, hdue, if_neg h01, if_pos hneg, if_pos hth,
                      if_pos hwle, ht]
                  | some t =>
                    right; right; right
                    refine ⟨f, t, -(tdDays (due - now)), ?_⟩
                    simp only [check_due_dates, if_neg h1, hcf, hc, if_neg hp,
                      getSP_of_mem now hsp, hdue, if_neg h01, if_pos hneg, if_pos hth,
                      if_pos hwle, ht]
                · left
                  simp only [check_due_dates, if_neg h1, hcf, hc, if_neg hp,
                    getSP_of_mem now hsp, hdue, if_neg h01, if_pos hneg, if_pos hth,
                    if_neg hwle]
              · left
                simp only [check_due_dates, if_neg h1, hcf, hc, if_neg hp,
                  getSP_of_mem now hsp, hdue, if_neg h01, if_pos hneg, if_neg hth]
            · left
              simp only [check_due_dates, if_neg h1, hcf, hc, if_neg hp,
                getSP_of_mem now hsp, hdue, if_neg h01, if_neg hneg]
      | none =>
        have hdays : tdDays (now + (p.global_settings.reminder_interval : Int) * secPerDay - now)
            = (p.global_settings.reminder_interval : Int) := by
          rw [show now + (p.global_settings.reminder_interval : Int) * secPerDay - now
              = (p.global_settings.reminder_interval : Int) * secPerDay by ring]
          exact tdDays_natMul _
        have hge : 0 ≤ tdDays (now + (p.global_settings.reminder_interval : Int) * secPerDay - now) := by
          rw [hdays]
          exact Int.ofNat_nonneg _
        by_cases h01 : 0 ≤ tdDays (now + (p.global_settings.reminder_interval : Int) * secPerDay - now) ∧
            tdDays (now + (p.global_settings.reminder_interval : Int) * secPerDay - now) ≤ 1
        · by_cases hwle : (1 : Int) ≤ (syl.tasks.length : Int)
          · cases ht : pyGet syl.tasks (1 - 1) with
            | none =>
              left
              simp only [check_due_dates, if_neg h1, hcf, hc, if_neg hp,
                getSP_of_none now hsp, freshProgress, if_pos h01, if_pos hwle, ht]
            | some t =>
              by_cases h0 : tdDays (now + (p.global_settings.reminder_interval : Int) * secPerDay - now) = 0
              · right; left
                refine ⟨f, t, ?_⟩
                simp only [check_due_dates, if_neg h1, hcf, hc, if_neg hp,
                  getSP_of_none now hsp, freshProgress, if_pos h01, if_pos hwle, ht, if_pos h0]
              · right; right; left
                refine ⟨f, t, ?_⟩
                simp only [check_due_dates, if_neg h1, hcf, hc, if_neg hp,
                  getSP_of_none now hsp, freshProgress, if_pos h01, if_pos hwle, ht, if_neg h0]
          · left
            simp only [check_due_dates, if_neg h1, hcf, hc, if_neg hp,
              getSP_of_none now hsp, freshProgress, if_pos h01, if_neg hwle]
        · left
          simp only [check_due_dates, if_neg h1, hcf, hc, if_neg hp,
            getSP_of_none now hsp, freshProgress, if_neg h01, if_neg (by omega :
              ¬tdDays (now + (p.global_settings.reminder_interval : Int) * secPerDay - now) < 0)]

/-! ### Claims -/

/-- C10: a daily scheduler run never writes the catalog; it writes the
progress document only when it emits an overdue notification, and then
changes only the `last_reminder` field; every other run (disabled,
no or paused selection, missing syllabus or due date, terminal state,
or a due-today/due-tomorrow emission) leaves both documents exactly
unchanged. -/
theorem C10_scheduler_frame (c : Catalog) (p : ProgressDoc) (now : Int) :
    (check_due_dates c p now).1 = c ∧
    (∀ f t dd, (check_due_dates c p now).2.2 = some (Notification.overdue f t dd) →
      (check_due_dates c p now).2.1 = { p with global_settings :=
        { p.global_settings with last_reminder := some now } }) ∧
    ((∀ f t dd, (check_due_dates c p now).2.2 ≠ some (Notification.overdue f t dd)) →
      (check_due_dates c p now).2.1 = p) := by
  rcases check_due_dates_cases c p now with h | ⟨f, t, h⟩ | ⟨f, t, h⟩ | ⟨f, t, dd, h⟩
  · rw [h]
    exact ⟨rfl, fun f0 t0 d0 he => absurd he (by simp), fun _ => rfl⟩
  · rw [h]
    exact ⟨rfl, fun f0 t0 d0 he => absurd he (by simp), fun _ => rfl⟩
  · rw [h]
    exact ⟨rfl, fun f0 t0 d0 he => absurd he (by simp), fun _ => rfl⟩
  · rw [h]
    exact ⟨rfl, fun f0 t0 d0 _ => rfl, fun hno => absurd rfl (hno f t dd)⟩

/-- Witness for C10 at a concrete overdue state. -/
theorem C10_witness :
    (check_due_dates ⟨some "B", [("B", ⟨["u"], false⟩)]⟩
      ⟨⟨7, true, some 0⟩, [("B", ⟨1, [], [], 0, some 0⟩)]⟩ 345600).1
      = ⟨some "B", [("B", ⟨["u"], false⟩)]⟩ ∧
    (∀ f t dd, (check_due_dates ⟨some "B", [("B", ⟨["u"], false⟩)]⟩
        ⟨⟨7, true, some 0⟩, [("B", ⟨1, [], [], 0, some 0⟩)]⟩ 345600).2.2
        = some (Notification.overdue f t dd) →
      (check_due_dates ⟨some "B", [("B", ⟨["u"], false⟩)]⟩
        ⟨⟨7, true, some 0⟩, [("B", ⟨1, [], [], 0, some 0⟩)]⟩ 345600).2.1
        = { (⟨⟨7, true, some 0⟩, [("B", ⟨1, [], [], 0, some 0⟩)]⟩ : ProgressDoc) with
            global_settings := { (⟨7, true, some 0⟩ : GlobalSettings) with
              last_reminder := some 345600 } }) ∧
    ((∀ f t dd, (check_due_dates ⟨some "B", [("B", ⟨["u"], false⟩)]⟩
        ⟨⟨7, true, some 0⟩, [("B", ⟨1, [], [], 0, some 0⟩)]⟩ 345600).2.2
        ≠ some (Notification.overdue f t dd)) →
      (check_due_dates ⟨some "B", [("B", ⟨["u"], false⟩)]⟩
        ⟨⟨7, true, some 0⟩, [("B", ⟨1, [], [], 0, some 0⟩)]⟩ 345600).2.1
        = ⟨⟨7, true, some 0⟩, [("B", ⟨1, [], [], 0, some 0⟩)]⟩) :=
  C10_scheduler_frame ⟨some "B", [("B", ⟨["u"], false⟩)]⟩
    ⟨⟨7, true, some 0⟩, [("B", ⟨1, [], [], 0, some 0⟩)]⟩ 345600

/-- C2: for every syllabus with `n ≥ 1` tasks, starting from a fresh
progress record with the syllabus selected throughout, after exactly
`n` completions (`handle_yes_response`) the record has
`current_week = n + 1` and `completed_weeks = [0, ..., n-1]`, i.e. the
syllabus is in the Completed terminal state. -/
theorem C2_n_completes_reach_terminal (c : Catalog) (p : ProgressDoc) (f : String)
    (syl : Syllabus) (sp : SyllabusProgress) (times : List Int)
    (hc : lookupA c.syllabi f = some syl)
    (hcf : c.current_field = some f)
    (hsp : lookupA p.syllabi_progress f = some sp)
    (hw : sp.current_week = 1)
    (hcw : sp.completed_weeks = [])
    (hlen : times.length = syl.tasks.length)
    (hn : 1 ≤ syl.tasks.length) :
    ∃ sp2, lookupA (completeN c p times).syllabi_progress f = some sp2 ∧
      sp2.current_week = (syl.tasks.length : Int) + 1 ∧
      sp2.completed_weeks = (List.range syl.tasks.length).map Int.ofNat ∧
      (syl.tasks.length : Int) < sp2.current_week := by
  obtain ⟨sp2, h1, h2, h3⟩ :=
    completeN_spec c f hcf times p 0 sp hsp (by simpa using hw) (by simpa using hcw)
  refine ⟨sp2, h1, ?_, ?_, ?_⟩
  · rw [h2, hlen]
    push_cast
    ring
  · rw [h3, hlen]
    simp
  · rw [h2, hlen]
    push_cast
    omega

/-- C7 (amended): the days-remaining figure reported by `/current`,
`/check`, `/statistics` and classified by the scheduler is
`tdDays (due_date - now)`, the whole-day difference truncated toward
negative infinity (floor), so a difference of minus 12 hours yields
-1 (reported as overdue by 1), not 0. -/
theorem C7_days_remaining_floor (c : Catalog) (p : ProgressDoc) (now : Int)
    (f : String) (syl : Syllabus) (sp : SyllabusProgress) (d : Int) (task : String)
    (hcf : c.current_field = some f)
    (hc : lookupA c.syllabi f = some syl)
    (hpause : syl.paused = false)
    (hsp : lookupA p.syllabi_progress f = some sp)
    (hdue : sp.due_date = some d)
    (hwpos : 0 < sp.current_week)
    (hwle : sp.current_week ≤ (syl.tasks.length : Int))
    (htask : pyGet syl.tasks (sp.current_week - 1) = some task)
    (hen : p.global_settings.reminders_enabled = true) :
    current_week c p now = CurrentOutcome.task f task (some
      (if tdDays (d - now) < 0 then DueStatus.overdueBy (abs (tdDays (d - now)))
       else DueStatus.dueIn (tdDays (d - now)))) ∧
    check_progress c p now = CheckOutcome.ask f task (some
      (if tdDays (d - now) < 0 then DueStatus.overdueBy (abs (tdDays (d - now)))
       else DueStatus.dueIn (tdDays (d - now)))) ∧
    (∃ rep, show_statistics c p now = some rep ∧
      rep.days_left = some (tdDays (d - now))) ∧
    (0 ≤ tdDays (d - now) ∧ tdDays (d - now) ≤ 1 →
      (check_due_dates c p now).2.2 = some
        (if tdDays (d - now) = 0 then Notification.dueToday f task
         else Notification.dueTomorrow f task)) ∧
    (secPerDay * tdDays (d - now) ≤ d - now ∧
      d - now < secPerDay * (tdDays (d - now) + 1)) := by
  refine ⟨?_, ?_, ?_, ?_, tdDays_floor (d - now)⟩
  · simp only [current_week, hcf, hc, hpause, Bool.false_eq_true, if_false,
      getSP_of_mem now hsp, if_pos (And.intro hwpos hwle), hdue, Option.map_some', htask]
  · simp only [check_progress, hcf, hc, hpause, Bool.false_eq_true, if_false,
      getSP_of_mem now hsp, if_pos (And.intro hwpos hwle), hdue, Option.map_some', htask]
  · simp only [show_statistics, hcf, hc, getSP_of_mem now hsp, hdue, Option.map_some',
      if_pos hwle]
    exact ⟨_, rfl, rfl⟩
  · intro hd
    simp only [check_due_dates, hen, Bool.true_eq_false, if_false, hcf, hc, hpause,
      getSP_of_mem now hsp, hdue, if_pos hd, if_pos hwle, htask]
    rfl

/-- Counterexample for C7 as stated: with `due_date - now` equal to
minus 12 hours (43200 seconds), the code reports overdue by 1 day
(`.days = -1`), whereas truncation toward zero would give 0. -/
theorem C7_counterexample :
    current_week ⟨some "A", [("A", ⟨["t"], false⟩)]⟩
        ⟨⟨7, true, none⟩, [("A", ⟨1, [], [], 0, some 0⟩)]⟩ 43200
      = CurrentOutcome.task "A" "t" (some (DueStatus.overdueBy 1)) ∧
    tdDays (0 - 43200) = -1 ∧
    Int.tdiv (0 - 43200) secPerDay = 0 := by
  refine ⟨?_, ?_, ?_⟩ <;> decide

/-- Witness for C7 at the same concrete state. -/
theorem C7_witness :
    current_week ⟨some "A", [("A", ⟨["t"], false⟩)]⟩
        ⟨⟨7, true, none⟩, [("A", ⟨1, [], [], 0, some 0⟩)]⟩ 43200
      = CurrentOutcome.task "A" "t" (some
        (if tdDays (0 - 43200) < 0 then DueStatus.overdueBy (abs (tdDays (0 - 43200)))
         else DueStatus.dueIn (tdDays (0 - 43200)))) ∧
    check_progress ⟨some "A", [("A", ⟨["t"], false⟩)]⟩
        ⟨⟨7, true, none⟩, [("A", ⟨1, [], [], 0, some 0⟩)]⟩ 43200
      = CheckOutcome.ask "A" "t" (some
        (if tdDays (0 - 43200) < 0 then DueStatus.overdueBy (abs (tdDays (0 - 43200)))
         else DueStatus.dueIn (tdDays (0 - 43200)))) ∧
    (∃ rep, show_statistics ⟨some "A", [("A", ⟨["t"], false⟩)]⟩
        ⟨⟨7, true, none⟩, [("A", ⟨1, [], [], 0, some 0⟩)]⟩ 43200 = some rep ∧
      rep.days_left = some (tdDays (0 - 43200))) ∧
    (0 ≤ tdDays (0 - 43200) ∧ tdDays (0 - 43200) ≤ 1 →
      (check_due_dates ⟨some "A", [("A", ⟨["t"], false⟩)]⟩
        ⟨⟨7, true, none⟩, [("A", ⟨1, [], [], 0, some 0⟩)]⟩ 43200).2.2 = some
        (if tdDays (0 - 43200) = 0 then Notification.dueToday "A" "t"
         else Notification.dueTomorrow "A" "t")) ∧
    (secPerDay * tdDays (0 - 43200) ≤ 0 - 43200 ∧
      0 - 43200 < secPerDay * (tdDays (0 - 43200) + 1)) :=
  C7_days_remaining_floor ⟨some "A", [("A", ⟨["t"], false⟩)]⟩
    ⟨⟨7, true, none⟩, [("A", ⟨1, [], [], 0, some 0⟩)]⟩ 43200 "A" ⟨["t"], false⟩
    ⟨1, [], [], 0, some 0⟩ 0 "t" rfl rfl rfl rfl rfl (by decide) (by decide) (by decide) rfl

/-- C9 (amended): for a non-terminal selected syllabus, the statistics
estimate is included exactly when `days_active > 0` and
`completed_count > 0`, and then equals
`remaining_tasks * (days_active / completed_count)`; with zero
completions (or on day zero) it is omitted — the configured-interval
fallback is never used. -/
theorem C9_estimate_guard (c : Catalog) (p : ProgressDoc) (now : Int)
    (f : String) (syl : Syllabus) (sp : SyllabusProgress)
    (hcf : c.current_field = some f)
    (hc : lookupA c.syllabi f = some syl)
    (hsp : lookupA p.syllabi_progress f = some sp)
    (hwle : sp.current_week ≤ (syl.tasks.length : Int)) :
    ∃ rep, show_statistics c p now = some rep ∧
      rep.completed_tasks = sp.completed_weeks.length ∧
      rep.total_tasks = syl.tasks.length ∧
      rep.remaining = some ((syl.tasks.length : Int) - sp.current_week + 1) ∧
      rep.estimate =
        (if 0 < tdDays (now - sp.start_date) ∧ 0 < sp.completed_weeks.length then
          some ((((syl.tasks.length : Int) - sp.current_week + 1 : Int) : ℚ) *
            ((tdDays (now - sp.start_date) : ℚ) / (sp.completed_weeks.length : ℚ)))
        else none) := by
  simp only [show_statistics, hcf, hc, getSP_of_mem now hsp, if_pos hwle]
  exact ⟨_, rfl, rfl, rfl, rfl, rfl⟩

/-- Counterexample for C9 as stated: a non-terminal state with
`days_active = 5 > 0` and zero completed tasks; the statistics contain
no estimate at all, while the claim requires an estimate based on the
configured interval. -/
theorem C9_counterexample :
    show_statistics ⟨some "A", [("A", ⟨["t1", "t2"], false⟩)]⟩
        ⟨⟨7, true, none⟩, [("A", ⟨1, [], [], 0, some 86400⟩)]⟩ 432000
      = some { completed_tasks := 0, total_tasks := 2, current_display := 1,
               days_active := 5, days_left := some (-4), remaining := some 2,
               estimate := none } := by
  decide

/-- Witness for C9 at the same concrete state. -/
theorem C9_witness :
    ∃ rep, show_statistics ⟨some "A", [("A", ⟨["t1", "t2"], false⟩)]⟩
        ⟨⟨7, true, none⟩, [("A", ⟨1, [], [], 0, some 86400⟩)]⟩ 432000 = some rep ∧
      rep.completed_tasks = ([] : List Int).length ∧
      rep.total_tasks = (["t1", "t2"] : List String).length ∧
      rep.remaining = some (((["t1", "t2"] : List String).length : Int) - 1 + 1) ∧
      rep.estimate =
        (if 0 < tdDays (432000 - 0) ∧ 0 < ([] : List Int).length then
          some ((((((["t1", "t2"] : List String).length : Int) - 1 + 1 : Int)) : ℚ) *
            ((tdDays (432000 - 0) : ℚ) / ((([] : List Int).length : ℚ))))
        else none) :=
  C9_estimate_guard ⟨some "A", [("A", ⟨["t1", "t2"], false⟩)]⟩
    ⟨⟨7, true, none⟩, [("A", ⟨1, [], [], 0, some 86400⟩)]⟩ 432000 "A"
    ⟨["t1", "t2"], false⟩ ⟨1, [], [], 0, some 86400⟩ rfl rfl rfl (by decide)

/-- C8: in a scheduler run with reminders enabled, an active unpaused
non-terminal syllabus and a recorded due date: when overdue, the
overdue notification is emitted iff at least 3 whole days have elapsed
since `last_reminder` (defaulted far in the past when unset), and
`last_reminder := now` is persisted exactly on emission; when due in 0
or 1 days, the notification is emitted unconditionally and nothing is
persisted. -/
theorem C8_scheduler_reminders (c : Catalog) (p : ProgressDoc) (now : Int)
    (f : String) (syl : Syllabus) (sp : SyllabusProgress) (d : Int) (task : String)
    (hen : p.global_settings.reminders_enabled = true)
    (hcf : c.current_field = some f)
    (hc : lookupA c.syllabi f = some syl)
    (hpause : syl.paused = false)
    (hsp : lookupA p.syllabi_progress f = some sp)
    (hdue : sp.due_date = some d)
    (hwle : sp.current_week ≤ (syl.tasks.length : Int))
    (htask : pyGet syl.tasks (sp.current_week - 1) = some task) :
    (tdDays (d - now) < 0 →
      ((check_due_dates c p now).2.2
          = some (Notification.overdue f task (-(tdDays (d - now)))) ↔
        3 * secPerDay ≤ now - lastRemOf p) ∧
      (3 * secPerDay ≤ now - lastRemOf p →
        (check_due_dates c p now).2.1 = { p with global_settings :=
          { p.global_settings with last_reminder := some now } }) ∧
      (¬3 * secPerDay ≤ now - lastRemOf p →
        (check_due_dates c p now).2.1 = p ∧ (check_due_dates c p now).2.2 = none)) ∧
    (0 ≤ tdDays (d - now) ∧ tdDays (d - now) ≤ 1 →
      (check_due_dates c p now).2.2 = some
        (if tdDays (d - now) = 0 then Notification.dueToday f task
         else Notification.dueTomorrow f task) ∧
      (check_due_dates c p now).2.1 = p) := by
  refine ⟨?_, ?_⟩
  · intro hneg
    have hnot01 : ¬(0 ≤ tdDays (d - now) ∧ tdDays (d - now) ≤ 1) := by omega
    by_cases hth : 3 ≤ tdDays (now - lastRemOf p)
    · have hcalc : check_due_dates c p now =
          (c, { p with global_settings :=
              { p.global_settings with last_reminder := some now } },
            some (Notification.overdue f task (-(tdDays (d - now))))) := by
        simp only [check_due_dates, hen, Bool.true_eq_false, if_false, hcf, hc, hpause,
          Bool.false_eq_true, getSP_of_mem now hsp, hdue, if_neg hnot01,
          if_pos hneg, if_pos hth, if_pos hwle, htask]
      rw [hcalc]
      refine ⟨⟨fun _ => (three_le_tdDays_iff _).mp hth, fun _ => rfl⟩, fun _ => rfl, ?_⟩
      · intro hcon
        exact absurd ((three_le_tdDays_iff _).mp hth) hcon
    · have hcalc : check_due_dates c p now = (c, p, none) := by
        simp only [check_due_dates, hen, Bool.true_eq_false, if_false, hcf, hc, hpause,
          Bool.false_eq_true, getSP_of_mem now hsp, hdue, if_neg hnot01,
          if_pos hneg, if_neg hth]
      rw [hcalc]
      refine ⟨⟨?_, ?_⟩, ?_, fun _ => ⟨rfl, rfl⟩⟩
      · intro h0
        exact absurd h0 (by simp)
      · intro hge
        exact absurd ((three_le_tdDays_iff _).mpr hge) hth
      · intro hge
        exact absurd ((three_le_tdDays_iff _).mpr hge) hth
  · intro hd
    have hcalc : check_due_dates c p now = (c, p,
        some (if tdDays (d - now) = 0 then Notification.dueToday f task
              else Notification.dueTomorrow f task)) := by
      simp only [check_due_dates, hen, Bool.true_eq_false, if_false, hcf, hc, hpause,
        Bool.false_eq_true, getSP_of_mem now hsp, hdue, if_pos hd, if_pos hwle, htask]
    rw [hcalc]
    exact ⟨rfl, rfl⟩

/-- Witness for C8: an overdue task 4 days after the last reminder. -/
theorem C8_witness :
    (tdDays (0 - 345600) < 0 →
      ((check_due_dates ⟨some "A", [("A", ⟨["t"], false⟩)]⟩
          ⟨⟨7, true, some 0⟩, [("A", ⟨1, [], [], 0, some 0⟩)]⟩ 345600).2.2
          = some (Notification.overdue "A" "t" (-(tdDays (0 - 345600)))) ↔
        3 * secPerDay ≤ 345600 - lastRemOf ⟨⟨7, true, some 0⟩, [("A", ⟨1, [], [], 0, some 0⟩)]⟩) ∧
      (3 * secPerDay ≤ 345600 - lastRemOf ⟨⟨7, true, some 0⟩, [("A", ⟨1, [], [], 0, some 0⟩)]⟩ →
        (check_due_dates ⟨some "A", [("A", ⟨["t"], false⟩)]⟩
          ⟨⟨7, true, some 0⟩, [("A", ⟨1, [], [], 0, some 0⟩)]⟩ 345600).2.1
          = { (⟨⟨7, true, some 0⟩, [("A", ⟨1, [], [], 0, some 0⟩)]⟩ : ProgressDoc) with
              global_settings := { (⟨7, true, some 0⟩ : GlobalSettings) with
                last_reminder := some 345600 } }) ∧
      (¬3 * secPerDay ≤ 345600 - lastRemOf ⟨⟨7, true, some 0⟩, [("A", ⟨1, [], [], 0, some 0⟩)]⟩ →
        (check_due_dates ⟨some "A", [("A", ⟨["t"], false⟩)]⟩
          ⟨⟨7, true, some 0⟩, [("A", ⟨1, [], [], 0, some 0⟩)]⟩ 345600).2.1
          = ⟨⟨7, true, some 0⟩, [("A", ⟨1, [], [], 0, some 0⟩)]⟩ ∧
        (check_due_dates ⟨some "A", [("A", ⟨["t"], false⟩)]⟩
          ⟨⟨7, true, some 0⟩, [("A", ⟨1, [], [], 0, some 0⟩)]⟩ 345600).2.2 = none)) ∧
    (0 ≤ tdDays (0 - 345600) ∧ tdDays (0 - 345600) ≤ 1 →
      (check_due_dates ⟨some "A", [("A", ⟨["t"], false⟩)]⟩
        ⟨⟨7, true, some 0⟩, [("A", ⟨1, [], [], 0, some 0⟩)]⟩ 345600).2.2 = some
        (if tdDays (0 - 345600) = 0 then Notification.dueToday "A" "t"
         else Notification.dueTomorrow "A" "t") ∧
      (check_due_dates ⟨some "A", [("A", ⟨["t"], false⟩)]⟩
        ⟨⟨7, true, some 0⟩, [("A", ⟨1, [], [], 0, some 0⟩)]⟩ 345600).2.1
        = ⟨⟨7, true, some 0⟩, [("A", ⟨1, [], [], 0, some 0⟩)]⟩) :=
  C8_scheduler_reminders ⟨some "A", [("A", ⟨["t"], false⟩)]⟩
    ⟨⟨7, true, some 0⟩, [("A", ⟨1, [], [], 0, some 0⟩)]⟩ 345600 "A" ⟨["t"], false⟩
    ⟨1, [], [], 0, some 0⟩ 0 "t" rfl rfl rfl rfl rfl rfl (by decide) (by decide)

/-- Witness for C2 at a two-task syllabus. -/
theorem C2_witness :
    ∃ sp2, lookupA (completeN ⟨some "A", [("A", ⟨["x", "y"], false⟩)]⟩
        ⟨⟨7, true, none⟩, [("A", ⟨1, [], [], 0, some 7⟩)]⟩ [10, 20]).syllabi_progress "A"
      = some sp2 ∧
      sp2.current_week = (((["x", "y"] : List String).length : Int)) + 1 ∧
      sp2.completed_weeks = (List.range (["x", "y"] : List String).length).map Int.ofNat ∧
      (((["x", "y"] : List String).length : Int)) < sp2.current_week :=
  C2_n_completes_reach_terminal ⟨some "A", [("A", ⟨["x", "y"], false⟩)]⟩
    ⟨⟨7, true, none⟩, [("A", ⟨1, [], [], 0, some 7⟩)]⟩ "A" ⟨["x", "y"], false⟩
    ⟨1, [], [], 0, some 7⟩ [10, 20] rfl rfl rfl rfl rfl rfl (by decide)

/-- C1 (amended): when syllabus S exists, is unpaused, has at least one
task, and its progress record is in the terminal state
(`current_week = len(tasks) + 1`), selecting S resets `current_week`
back to 1 and displays the first task as the current one — it does not
report a fully-completed indicator; `completed_weeks` and `due_date`
are unchanged. -/
theorem C1_select_terminal_resets (c : Catalog) (p : ProgressDoc) (now : Int)
    (f : String) (syl : Syllabus) (sp : SyllabusProgress)
    (hc : lookupA c.syllabi f = some syl)
    (hpause : syl.paused = false)
    (hsp : lookupA p.syllabi_progress f = some sp)
    (hterm : sp.current_week = (syl.tasks.length : Int) + 1)
    (hn : 1 ≤ syl.tasks.length) :
    (start_syllabus_callback c p f now).1 = { c with current_field := some f } ∧
    (start_syllabus_callback c p f now).2.1 = setProg p f { sp with current_week := 1 } ∧
    ∃ t, syl.tasks.get? 0 = some t ∧
      (start_syllabus_callback c p f now).2.2 =
        SelectOutcome.switched false t (sp.due_date.map (fun d => tdDays (d - now))) := by
  have hnf : ¬(sp.current_week = 1 ∧ sp.completed_weeks = []) := by
    rintro ⟨h1, _⟩
    rw [hterm] at h1
    omega
  have hb : sp.current_week - 1 ≥ (syl.tasks.length : Int) := by
    rw [hterm]
    omega
  obtain ⟨t, ht⟩ : ∃ t, syl.tasks.get? 0 = some t := by
    cases h0 : syl.tasks.get? 0 with
    | some t => exact ⟨t, rfl⟩
    | none =>
      have := List.get?_eq_none.mp h0
      omega
  refine ⟨?_, ?_, t, ht, ?_⟩ <;>
    simp only [start_syllabus_callback, hc, hpause, Bool.false_eq_true, if_false,
      getSP_of_mem now hsp, if_neg hnf, hsp, Option.getD_some, if_pos hb,
      pyGet_zero, ht, decide_eq_false hnf]

/-- Counterexample for C1 as stated: a one-task syllabus in the
terminal state (`current_week = 2`); selecting it resets
`current_week` to 1 and displays task 0 as current instead of
reporting completion and leaving `current_week` unchanged. -/
theorem C1_counterexample :
    (lookupA (start_syllabus_callback ⟨none, [("M", ⟨["T1"], false⟩)]⟩
        ⟨⟨7, true, none⟩, [("M", ⟨2, [0], [(0, 100)], 0, some 500⟩)]⟩
        "M" 1000).2.1.syllabi_progress "M").map SyllabusProgress.current_week = some 1 ∧
    (start_syllabus_callback ⟨none, [("M", ⟨["T1"], false⟩)]⟩
        ⟨⟨7, true, none⟩, [("M", ⟨2, [0], [(0, 100)], 0, some 500⟩)]⟩
        "M" 1000).2.2 = SelectOutcome.switched false "T1" (some (-1)) := by
  constructor <;> rfl

/-- Witness for C1 at the same concrete state. -/
theorem C1_witness :
    (start_syllabus_callback ⟨none, [("M", ⟨["T1"], false⟩)]⟩
        ⟨⟨7, true, none⟩, [("M", ⟨2, [0], [(0, 100)], 0, some 500⟩)]⟩ "M" 1000).1
      = { (⟨none, [("M", ⟨["T1"], false⟩)]⟩ : Catalog) with current_field := some "M" } ∧
    (start_syllabus_callback ⟨none, [("M", ⟨["T1"], false⟩)]⟩
        ⟨⟨7, true, none⟩, [("M", ⟨2, [0], [(0, 100)], 0, some 500⟩)]⟩ "M" 1000).2.1
      = setProg ⟨⟨7, true, none⟩, [("M", ⟨2, [0], [(0, 100)], 0, some 500⟩)]⟩ "M"
          { (⟨2, [0], [(0, 100)], 0, some 500⟩ : SyllabusProgress) with current_week := 1 } ∧
    ∃ t, (["T1"] : List String).get? 0 = some t ∧
      (start_syllabus_callback ⟨none, [("M", ⟨["T1"], false⟩)]⟩
        ⟨⟨7, true, none⟩, [("M", ⟨2, [0], [(0, 100)], 0, some 500⟩)]⟩ "M" 1000).2.2
        = SelectOutcome.switched false t
            ((some 500 : Option Int).map (fun d => tdDays (d - 1000))) :=
  C1_select_terminal_resets _ _ 1000 "M" ⟨["T1"], false⟩ ⟨2, [0], [(0, 100)], 0, some 500⟩
    rfl rfl rfl (by decide) (by decide)

/-- C3: every engine operation preserves the progress-record
invariant — every index in `completed_weeks` is below the task count
of its syllabus and every `completion_dates` key is a completed
week — and completion (`handle_yes_response`), under its stated
precondition `0 < current_week ≤ len(tasks)`, never inserts an
out-of-range index. -/
theorem C3_ops_preserve_invariant (c : Catalog) (p : ProgressDoc) (now : Int)
    (name : String) (days : Int) (hInv : progressInv c p) :
    progressInv (start_syllabus_callback c p name now).1
      (start_syllabus_callback c p name now).2.1 ∧
    progressInv (switch_syllabus_callback c p name now).1
      (switch_syllabus_callback c p name now).2.1 ∧
    (∀ f sp syl, c.current_field = some f →
      lookupA p.syllabi_progress f = some sp →
      lookupA c.syllabi f = some syl →
      0 < sp.current_week → sp.current_week ≤ (syl.tasks.length : Int) →
      progressInv c (handle_yes_response c p now).1) ∧
    progressInv c (handle_no_response c p now).1 ∧
    progressInv c (handle_reset_yes c p now).1 ∧
    progressInv (pause_syllabus_callback c name).1 p ∧
    progressInv (resume_syllabus_callback c name).1 p ∧
    progressInv c (set_reminder_interval c p days now).1 ∧
    progressInv c (toggle_reminders p) ∧
    progressInv c (check_due_dates c p now).2.1 := by
  refine ⟨select_preserves_inv c p name now hInv, switch_preserves_inv c p name now hInv,
    ?_, ?_, ?_, ?_, ?_, ?_, progressInv_gsChange hInv, ?_⟩
  · -- completion under the stated precondition
    intro f sp syl hcf hsp hc hw1 hw2
    rw [handle_yes_progress now hcf hsp]
    refine progressInv_setProg hInv (fun syl2 hc2 => ?_)
    have hsyl : syl2 = syl := by
      rw [hc] at hc2
      injection hc2.symm
    subst hsyl
    have hrec := hInv f sp syl2 hsp hc
    constructor
    · intro i hi
      by_cases hm : sp.current_week - 1 ∈ sp.completed_weeks
      · rw [if_pos hm] at hi
        exact hrec.1 i hi
      · rw [if_neg hm] at hi
        rcases List.mem_append.mp hi with h | h
        · exact hrec.1 i h
        · have hie : i = sp.current_week - 1 := List.mem_singleton.mp h
          subst hie
          omega
    · intro kv hkv
      have hmemnew : sp.current_week - 1 ∈
          (if sp.current_week - 1 ∈ sp.completed_weeks then sp.completed_weeks
           else sp.completed_weeks ++ [sp.current_week - 1]) := by
        by_cases hm : sp.current_week - 1 ∈ sp.completed_weeks
        · rw [if_pos hm]
          exact hm
        · rw [if_neg hm]
          exact List.mem_append.mpr (Or.inr (List.mem_singleton.mpr rfl))
      rcases mem_updA _ hkv with h | h
      · rw [h]
        exact hmemnew
      · have hold := hrec.2 kv h
        by_cases hm : sp.current_week - 1 ∈ sp.completed_weeks
        · rw [if_pos hm]
          exact hold
        · rw [if_neg hm]
          exact List.mem_append.mpr (Or.inl hold)
  · -- defer
    cases hcf : c.current_field with
    | none =>
      simp only [handle_no_response, hcf]
      exact hInv
    | some f =>
      cases hsp : lookupA p.syllabi_progress f with
      | some sp =>
        cases hdue : sp.due_date with
        | some d =>
          simp only [handle_no_response, hcf, getSP_of_mem now hsp, hdue]
          exact progressInv_setProg hInv (fun syl2 hc2 =>
            recordInv_of_listsEq rfl rfl (hInv f sp syl2 hsp hc2))
        | none =>
          simp only [handle_no_response, hcf, getSP_of_mem now hsp, hdue]
          exact hInv
      | none =>
        simp only [handle_no_response, hcf, getSP_of_none now hsp, freshProgress,
          setProg_setProg]
        exact progressInv_setProg hInv (fun syl2 hc2 => by constructor <;> simp)
  · -- reset
    cases hcf : c.current_field with
    | none =>
      simp only [handle_reset_yes, hcf]
      exact hInv
    | some f =>
      cases hsp : lookupA p.syllabi_progress f with
      | none =>
        simp only [handle_reset_yes, hcf, hsp]
        exact hInv
      | some sp =>
        simp only [handle_reset_yes, hcf, hsp]
        exact progressInv_setProg hInv (fun syl2 hc2 => by constructor <;> simp)
  · -- pause
    cases hcl : lookupA c.syllabi name with
    | none =>
      simp only [pause_syllabus_callback, hcl]
      exact hInv
    | some syl =>
      simp only [pause_syllabus_callback, hcl]
      have h1 : progressInv
          { c with syllabi := updA c.syllabi name { syl with paused := true } } p := by
        refine progressInv_tasksEq hInv (fun g syl2 hg => ?_)
        by_cases hgn : g = name
        · subst hgn
          rw [lookupA_updA_self] at hg
          have : { syl with paused := true } = syl2 := by injection hg
          exact ⟨syl, hcl, by rw [← this]⟩
        · rw [lookupA_updA_ne _ _ _ _ hgn] at hg
          exact ⟨syl2, hg, rfl⟩
      by_cases hcond : ({ c with syllabi := updA c.syllabi name { syl with paused := true } } :
          Catalog).current_field = some name
      · rw [if_pos hcond]
        exact progressInv_cfChange h1
      · rw [if_neg hcond]
        exact h1
  · -- resume
    cases hcl : lookupA c.syllabi name with
    | none =>
      simp only [resume_syllabus_callback, hcl]
      exact hInv
    | some syl =>
      simp only [resume_syllabus_callback, hcl]
      refine progressInv_tasksEq hInv (fun g syl2 hg => ?_)
      by_cases hgn : g = name
      · subst hgn
        rw [lookupA_updA_self] at hg
        have : { syl with paused := false } = syl2 := by injection hg
        exact ⟨syl, hcl, by rw [← this]⟩
      · rw [lookupA_updA_ne _ _ _ _ hgn] at hg
        exact ⟨syl2, hg, rfl⟩
  · -- set_interval
    by_cases hd : days < 1
    · simp only [set_reminder_interval, if_pos hd]
      exact hInv
    · cases hcf : c.current_field with
      | some f =>
        simp only [set_reminder_interval, if_neg hd, hcf]
        exact progressInv_update_due_date f now (progressInv_gsChange hInv)
      | none =>
        simp only [set_reminder_interval, if_neg hd, hcf]
        exact progressInv_gsChange hInv
  · -- scheduler
    rcases check_due_dates_cases c p now with h | ⟨f, t, h⟩ | ⟨f, t, h⟩ | ⟨f, t, dd, h⟩ <;>
      rw [h]
    · exact hInv
    · exact hInv
    · exact hInv
    · exact progressInv_gsChange hInv

/-- Witness for C3 at a concrete state with an empty progress store
(the invariant holds vacuously there). -/
theorem C3_witness :
    progressInv (start_syllabus_callback ⟨some "A", [("A", ⟨["t"], false⟩)]⟩
        ⟨⟨7, true, none⟩, []⟩ "A" 0).1
      (start_syllabus_callback ⟨some "A", [("A", ⟨["t"], false⟩)]⟩
        ⟨⟨7, true, none⟩, []⟩ "A" 0).2.1 ∧
    progressInv (switch_syllabus_callback ⟨some "A", [("A", ⟨["t"], false⟩)]⟩
        ⟨⟨7, true, none⟩, []⟩ "A" 0).1
      (switch_syllabus_callback ⟨some "A", [("A", ⟨["t"], false⟩)]⟩
        ⟨⟨7, true, none⟩, []⟩ "A" 0).2.1 ∧
    (∀ f sp syl, (⟨some "A", [("A", ⟨["t"], false⟩)]⟩ : Catalog).current_field = some f →
      lookupA (⟨⟨7, true, none⟩, []⟩ : ProgressDoc).syllabi_progress f = some sp →
      lookupA (⟨some "A", [("A", ⟨["t"], false⟩)]⟩ : Catalog).syllabi f = some syl →
      0 < sp.current_week → sp.current_week ≤ (syl.tasks.length : Int) →
      progressInv ⟨some "A", [("A", ⟨["t"], false⟩)]⟩
        (handle_yes_response ⟨some "A", [("A", ⟨["t"], false⟩)]⟩ ⟨⟨7, true, none⟩, []⟩ 0).1) ∧
    progressInv ⟨some "A", [("A", ⟨["t"], false⟩)]⟩
      (handle_no_response ⟨some "A", [("A", ⟨["t"], false⟩)]⟩ ⟨⟨7, true, none⟩, []⟩ 0).1 ∧
    progressInv ⟨some "A", [("A", ⟨["t"], false⟩)]⟩
      (handle_reset_yes ⟨some "A", [("A", ⟨["t"], false⟩)]⟩ ⟨⟨7, true, none⟩, []⟩ 0).1 ∧
    progressInv (pause_syllabus_callback ⟨some "A", [("A", ⟨["t"], false⟩)]⟩ "A").1
      ⟨⟨7, true, none⟩, []⟩ ∧
    progressInv (resume_syllabus_callback ⟨some "A", [("A", ⟨["t"], false⟩)]⟩ "A").1
      ⟨⟨7, true, none⟩, []⟩ ∧
    progressInv ⟨some "A", [("A", ⟨["t"], false⟩)]⟩
      (set_reminder_interval ⟨some "A", [("A", ⟨["t"], false⟩)]⟩ ⟨⟨7, true, none⟩, []⟩ 3 0).1 ∧
    progressInv ⟨some "A", [("A", ⟨["t"], false⟩)]⟩
      (toggle_reminders ⟨⟨7, true, none⟩, []⟩) ∧
    progressInv ⟨some "A", [("A", ⟨["t"], false⟩)]⟩
      (check_due_dates ⟨some "A", [("A", ⟨["t"], false⟩)]⟩ ⟨⟨7, true, none⟩, []⟩ 0).2.1 :=
  C3_ops_preserve_invariant ⟨some "A", [("A", ⟨["t"], false⟩)]⟩ ⟨⟨7, true, none⟩, []⟩ 0 "A" 3
    (by intro f sp syl hf hc; simp [lookupA] at hf)

/-- C4: for every state with an active syllabus whose progress record
contains a due date, deferring (`handle_no_response`) sets `due_date`
to the previous due date plus exactly `max 3 (reminder_interval / 2)`
days and leaves `current_week` and `completed_weeks` unchanged. -/
theorem C4_defer_extends_due_date (c : Catalog) (p : ProgressDoc) (now : Int)
    (f : String) (sp : SyllabusProgress) (d : Int)
    (hcf : c.current_field = some f)
    (hsp : lookupA p.syllabi_progress f = some sp)
    (hdue : sp.due_date = some d) :
    ∃ sp2, lookupA (handle_no_response c p now).1.syllabi_progress f = some sp2 ∧
      sp2.due_date =
        some (d + ((max 3 (p.global_settings.reminder_interval / 2) : Nat) : Int) * secPerDay) ∧
      sp2.current_week = sp.current_week ∧
      sp2.completed_weeks = sp.completed_weeks := by
  have h1 : (handle_no_response c p now).1 = setProg p f { sp with due_date := some (d + ((max 3 (p.global_settings.reminder_interval / 2) : Nat) : Int) * secPerDay) } := by
    simp only [handle_no_response, hcf, getSP_of_mem now hsp, hdue]
  rw [h1, lookupA_setProg_self]
  exact ⟨_, rfl, rfl, rfl, rfl⟩

/-- Witness for C4 at a concrete state. -/
theorem C4_witness : ∃ sp2,
    lookupA (handle_no_response
      ⟨some "A", [("A", ⟨["t1"], false⟩)]⟩
      ⟨⟨7, true, none⟩, [("A", ⟨1, [], [], 0, some 600000⟩)]⟩ 0).1.syllabi_progress "A"
      = some sp2 ∧
    sp2.due_date = some (600000 + ((max 3 ((7 : Nat) / 2) : Nat) : Int) * secPerDay) ∧
    sp2.current_week = 1 ∧
    sp2.completed_weeks = [] :=
  C4_defer_extends_due_date _ _ 0 "A" ⟨1, [], [], 0, some 600000⟩ 600000 rfl rfl rfl

/-- C5: for every existing unpaused syllabus with an existing progress
record, switching always recomputes `due_date = now + interval`;
selecting recomputes it only for a fresh record (`current_week = 1`,
no completed weeks) and leaves `due_date` unchanged otherwise. -/
theorem C5_due_date_recompute_asymmetry (c : Catalog) (p : ProgressDoc) (now : Int)
    (f : String) (syl : Syllabus) (sp : SyllabusProgress)
    (hc : lookupA c.syllabi f = some syl)
    (hpause : syl.paused = false)
    (hsp : lookupA p.syllabi_progress f = some sp) :
    (∃ sp2, lookupA (switch_syllabus_callback c p f now).2.1.syllabi_progress f = some sp2 ∧
        sp2.due_date = some (now + (p.global_settings.reminder_interval : Int) * secPerDay)) ∧
    (sp.current_week = 1 → sp.completed_weeks = [] →
      ∃ sp2, lookupA (start_syllabus_callback c p f now).2.1.syllabi_progress f = some sp2 ∧
        sp2.due_date = some (now + (p.global_settings.reminder_interval : Int) * secPerDay)) ∧
    (¬(sp.current_week = 1 ∧ sp.completed_weeks = []) →
      ∃ sp2, lookupA (start_syllabus_callback c p f now).2.1.syllabi_progress f = some sp2 ∧
        sp2.due_date = sp.due_date) := by
  refine ⟨?_, ?_, ?_⟩
  · by_cases hb : sp.current_week - 1 ≥ (syl.tasks.length : Int)
    · have h1 : (switch_syllabus_callback c p f now).2.1 = setProg p f
          { sp with
            due_date := some (now + (p.global_settings.reminder_interval : Int) * secPerDay)
            current_week := 1 } := by
        simp only [switch_syllabus_callback, hc, hpause, getSP_of_mem now hsp,
          update_due_date_of_mem now hsp, lookupA_setProg_self, Bool.false_eq_true,
          if_false, if_pos hb, Option.getD_some, setProg_setProg]
      rw [h1, lookupA_setProg_self]
      exact ⟨_, rfl, rfl⟩
    · have h1 : (switch_syllabus_callback c p f now).2.1 = setProg p f
          { sp with
            due_date := some (now + (p.global_settings.reminder_interval : Int) * secPerDay) } := by
        simp only [switch_syllabus_callback, hc, hpause, getSP_of_mem now hsp,
          update_due_date_of_mem now hsp, lookupA_setProg_self, Bool.false_eq_true,
          if_false, if_neg hb, Option.getD_some]
      rw [h1, lookupA_setProg_self]
      exact ⟨_, rfl, rfl⟩
  · intro hw he
    by_cases hb : sp.current_week - 1 ≥ (syl.tasks.length : Int)
    · have h1 : (start_syllabus_callback c p f now).2.1 = setProg p f
          { sp with
            due_date := some (now + (p.global_settings.reminder_interval : Int) * secPerDay)
            current_week := 1 } := by
        simp only [start_syllabus_callback, hc, hpause, getSP_of_mem now hsp,
          update_due_date_of_mem now hsp, lookupA_setProg_self, Bool.false_eq_true,
          if_false, if_pos hb, if_pos (And.intro hw he), Option.getD_some, setProg_setProg]
      rw [h1, lookupA_setProg_self]
      exact ⟨_, rfl, rfl⟩
    · have h1 : (start_syllabus_callback c p f now).2.1 = setProg p f
          { sp with
            due_date := some (now + (p.global_settings.reminder_interval : Int) * secPerDay) } := by
        simp only [start_syllabus_callback, hc, hpause, getSP_of_mem now hsp,
          update_due_date_of_mem now hsp, lookupA_setProg_self, Bool.false_eq_true,
          if_false, if_neg hb, if_pos (And.intro hw he), Option.getD_some]
      rw [h1, lookupA_setProg_self]
      exact ⟨_, rfl, rfl⟩
  · intro hnf
    by_cases hb : sp.current_week - 1 ≥ (syl.tasks.length : Int)
    · have h1 : (start_syllabus_callback c p f now).2.1 =
          setProg p f { sp with current_week := 1 } := by
        simp only [start_syllabus_callback, hc, hpause, getSP_of_mem now hsp,
          Bool.false_eq_true, if_false, if_neg hnf, hsp, Option.getD_some, if_pos hb]
      rw [h1, lookupA_setProg_self]
      exact ⟨_, rfl, rfl⟩
    · have h1 : (start_syllabus_callback c p f now).2.1 = p := by
        simp only [start_syllabus_callback, hc, hpause, getSP_of_mem now hsp,
          Bool.false_eq_true, if_false, if_neg hnf, hsp, Option.getD_some, if_neg hb]
      rw [h1]
      exact ⟨sp, hsp, rfl⟩

/-- Witness for C5 at a concrete state with prior completions. -/
theorem C5_witness :
    (∃ sp2, lookupA (switch_syllabus_callback
        ⟨none, [("A", ⟨["t1", "t2"], false⟩)]⟩
        ⟨⟨7, true, none⟩, [("A", ⟨2, [0], [(0, 5)], 0, some 999⟩)]⟩ "A" 100).2.1.syllabi_progress "A"
        = some sp2 ∧ sp2.due_date = some (100 + ((7 : Nat) : Int) * secPerDay)) ∧
    ((2 : Int) = 1 → ([0] : List Int) = [] →
      ∃ sp2, lookupA (start_syllabus_callback
        ⟨none, [("A", ⟨["t1", "t2"], false⟩)]⟩
        ⟨⟨7, true, none⟩, [("A", ⟨2, [0], [(0, 5)], 0, some 999⟩)]⟩ "A" 100).2.1.syllabi_progress "A"
        = some sp2 ∧ sp2.due_date = some (100 + ((7 : Nat) : Int) * secPerDay)) ∧
    (¬((2 : Int) = 1 ∧ ([0] : List Int) = []) →
      ∃ sp2, lookupA (start_syllabus_callback
        ⟨none, [("A", ⟨["t1", "t2"], false⟩)]⟩
        ⟨⟨7, true, none⟩, [("A", ⟨2, [0], [(0, 5)], 0, some 999⟩)]⟩ "A" 100).2.1.syllabi_progress "A"
        = some sp2 ∧ sp2.due_date = some 999) :=
  C5_due_date_recompute_asymmetry _ _ 100 "A" ⟨["t1", "t2"], false⟩
    ⟨2, [0], [(0, 5)], 0, some 999⟩ rfl rfl rfl

/-- C6 (amended): selecting or switching to a name that is not in the
catalog fails, but with the very same `pausedMsg` outcome used for a
paused syllabus — the code produces no distinct NotFound failure, and
neither document is written. -/
theorem C6_unknown_name_pausedMsg (c : Catalog) (p : ProgressDoc)
    (name : String) (now : Int) (h : lookupA c.syllabi name = none) :
    start_syllabus_callback c p name now = (c, p, .pausedMsg name) ∧
    switch_syllabus_callback c p name now = (c, p, .pausedMsg name) := by
  constructor
  · simp only [start_syllabus_callback, h]
  · simp only [switch_syllabus_callback, h]

/-- Counterexample for C6 as stated: an unknown name and a paused
syllabus produce the identical `pausedMsg` failure from select, so
the NotFound failure is not distinct from the Paused failure. -/
theorem C6_counterexample :
    (start_syllabus_callback ⟨none, []⟩ ⟨⟨7, true, none⟩, []⟩ "X" 0).2.2
      = SelectOutcome.pausedMsg "X" ∧
    (start_syllabus_callback ⟨none, [("X", ⟨["t"], true⟩)]⟩ ⟨⟨7, true, none⟩, []⟩ "X" 0).2.2
      = SelectOutcome.pausedMsg "X" := by
  constructor <;> rfl

/-- Witness for C6 at a concrete state. -/
theorem C6_witness :
    start_syllabus_callback ⟨none, []⟩ ⟨⟨7, true, none⟩, []⟩ "Y" 3
      = (⟨none, []⟩, ⟨⟨7, true, none⟩, []⟩, .pausedMsg "Y") ∧
    switch_syllabus_callback ⟨none, []⟩ ⟨⟨7, true, none⟩, []⟩ "Y" 3
      = (⟨none, []⟩, ⟨⟨7, true, none⟩, []⟩, .pausedMsg "Y") :=
  C6_unknown_name_pausedMsg _ _ "Y" 3 rfl
